import Mathlib

set_option maxRecDepth 10000

/-!
Verification development for the remote-media-processing core of this
repository: the compositing geometry of
`app/services/video_compositor.py`, the retry/failover transfer loops of
`app/services/robust_cos_uploader.py`, and the polling / queue-resolution /
orchestration logic of `app/services/tencent_video_service.py`, together
with the COS request-signing algorithm (SHA1 / HMAC-SHA1, embedded in
full).  Python source is embedded shallowly: machine-independent numbers
become `Nat`/`Int`/`ℚ`, network effects become explicit environments of
outcomes, and exceptions become explicit control-flow values.
-/

namespace VideoCompositor

/-!
Geometry of `VideoCompositorService.composite_with_background`
(`app/services/video_compositor.py`, lines 90-119).  The FFmpeg filter
expressions built there are, with `ih2` the background height `H`, `iw2`
the background width `W`, and `a` the aspect ratio (width/height) of the
cropped foreground bounding box:

  safe_lr = round(ih2*safe_ratio)
  base_w  = trunc((ih2*ratio*a)/2)*2
  base_h  = trunc((ih2*ratio)/2)*2
  w_expr  = min(base_w, iw2-2*safe_lr)
  h_expr  = min(base_h, ih2-top_margin-bottom_margin)
  overlay x = (W-w)/2
  overlay y = top_margin+((H-top_margin-bottom_margin)-h)/2+(bottom_margin-top_margin)/2

FFmpeg expression arithmetic is modelled over ℚ; `trunc` truncates toward
zero and `round` rounds half away from zero, as in FFmpeg's expression
evaluator.
-/

/-- FFmpeg expression `trunc`: truncation toward zero. -/
def ffTrunc (x : ℚ) : ℤ := if 0 ≤ x then ⌊x⌋ else -⌊-x⌋

/-- FFmpeg expression `round`: rounding half away from zero. -/
def ffRound (x : ℚ) : ℤ := if 0 ≤ x then ⌊x + 1/2⌋ else -⌊-x + 1/2⌋

/-- Inputs of the geometry computation: background size `W × H`, cropped
foreground bounding-box aspect ratio `a`, the configured height ratio,
pixel margins and the left/right safe-margin ratio. -/
structure GeomIn where
  W : ℚ
  H : ℚ
  a : ℚ
  ratio : ℚ
  topMargin : ℚ
  bottomMargin : ℚ
  safeRatio : ℚ

/-- `safe_lr = round(ih2*safe_ratio)` (line 92). -/
def safeLR (g : GeomIn) : ℚ := (ffRound (g.H * g.safeRatio) : ℚ)

/-- `base_w = trunc((ih2*ratio*a)/2)*2` (line 94). -/
def baseW (g : GeomIn) : ℚ := (ffTrunc ((g.H * g.ratio * g.a) / 2) : ℚ) * 2

/-- `base_h = trunc((ih2*ratio)/2)*2` (line 95). -/
def baseH (g : GeomIn) : ℚ := (ffTrunc ((g.H * g.ratio) / 2) : ℚ) * 2

/-- The width clamp bound `iw2 - 2*safe_lr` (line 97). -/
def wBound (g : GeomIn) : ℚ := g.W - 2 * safeLR g

/-- The height clamp bound `ih2 - top_margin - bottom_margin` (line 98). -/
def hBound (g : GeomIn) : ℚ := g.H - g.topMargin - g.bottomMargin

/-- FFmpeg expression `min`, written out so it evaluates by reduction. -/
def ratMin (x y : ℚ) : ℚ := if x ≤ y then x else y

theorem ratMin_le_right (x y : ℚ) : ratMin x y ≤ y := by
  rw [ratMin]; split
  · assumption
  · exact le_refl y

theorem ratMin_choice (x y : ℚ) : ratMin x y = x ∨ ratMin x y = y := by
  rw [ratMin]; split
  · exact Or.inl rfl
  · exact Or.inr rfl

/-- `w_expr = min(base_w, iw2-2*safe_lr)` (line 97). -/
def targetW (g : GeomIn) : ℚ := ratMin (baseW g) (wBound g)

/-- `h_expr = min(base_h, ih2-top_margin-bottom_margin)` (line 98). -/
def targetH (g : GeomIn) : ℚ := ratMin (baseH g) (hBound g)

/-- Horizontal overlay offset `(W-w)/2` (lines 108/118). -/
def offsetX (g : GeomIn) : ℚ := (g.W - targetW g) / 2

/-- Vertical overlay offset
`top_margin+((H-top_margin-bottom_margin)-h)/2+(bottom_margin-top_margin)/2`
(lines 108/118). -/
def offsetY (g : GeomIn) : ℚ :=
  g.topMargin + (hBound g - targetH g) / 2 + (g.bottomMargin - g.topMargin) / 2

/-- A rational is an even integer. -/
def IsEvenInt (x : ℚ) : Prop := ∃ n : ℤ, x = 2 * n

/-- The spec-reading of the §4.4 clamp for comparison: if either clamp
triggers, both dimensions are uniformly rescaled together so that the
emitted pair preserves the bounding-box aspect ratio; equivalently the
emitted width/height ratio equals `a`. -/
def specAspectPreserved (g : GeomIn) : Prop :=
  targetW g / targetH g = g.a

end VideoCompositor

namespace VideoCompositor

/-- Claim C5: with background 1920×1080, ratio 0.5, top = bottom = 80,
safe-margin ratio 0.08 and a square bounding box, the geometry yields
targetHeight = 540, targetWidth = 540 and offsetX = (1920-540)/2 = 690;
with ratio 0.95 and the same margins the emitted height is clamped to at
most 1080 - 160 = 920. -/
theorem C5_geometry_reference_values :
    targetH ⟨1920, 1080, 1, 1/2, 80, 80, 8/100⟩ = 540 ∧
    targetW ⟨1920, 1080, 1, 1/2, 80, 80, 8/100⟩ = 540 ∧
    offsetX ⟨1920, 1080, 1, 1/2, 80, 80, 8/100⟩ = 690 ∧
    targetH ⟨1920, 1080, 1, 95/100, 80, 80, 8/100⟩ ≤ 920 := by
  refine ⟨?_, ?_, ?_, ?_⟩ <;>
    norm_num [targetH, targetW, offsetX, baseH, baseW, hBound, wBound, ratMin, ffTrunc, safeLR, ffRound]

/-- Claim C4 counterexample: for background 600×1080, square bounding box,
ratio 0.5, margins 80/80, safe ratio 0.08, only the width clamp triggers
(base 540×540, width bound 600 - 2·86 = 428), and the emitted pair
428×540 does not preserve the bounding-box aspect ratio 1: the dimensions
are not uniformly rescaled together. -/
theorem C4_counterexample_no_uniform_rescale :
    targetW ⟨600, 1080, 1, 1/2, 80, 80, 8/100⟩ = 428 ∧
    targetH ⟨600, 1080, 1, 1/2, 80, 80, 8/100⟩ = 540 ∧
    ¬ specAspectPreserved ⟨600, 1080, 1, 1/2, 80, 80, 8/100⟩ := by
  have hW : targetW ⟨600, 1080, 1, 1/2, 80, 80, 8/100⟩ = 428 := by
    norm_num [targetW, baseW, wBound, ratMin, ffTrunc, safeLR, ffRound]
  have hH : targetH ⟨600, 1080, 1, 1/2, 80, 80, 8/100⟩ = 540 := by
    norm_num [targetH, baseH, hBound, ratMin, ffTrunc]
  refine ⟨hW, hH, ?_⟩
  rw [specAspectPreserved, hW, hH]
  norm_num

/-- Claim C4 (amended): the two clamps act on width and height
independently — the emitted width does not depend on the top/bottom
margins and the emitted height does not depend on the background width —
so when exactly one clamp triggers only that dimension shrinks and no
uniform rescale preserving the bounding-box aspect ratio takes place. -/
theorem C4_clamps_act_independently (g : GeomIn) (W t b : ℚ) :
    targetW ⟨g.W, g.H, g.a, g.ratio, t, b, g.safeRatio⟩ = targetW g ∧
    targetH ⟨W, g.H, g.a, g.ratio, g.topMargin, g.bottomMargin, g.safeRatio⟩ = targetH g := by
  exact ⟨rfl, rfl⟩

/-- Claim C8 counterexample: with background width 601 (ratio 0.5, square
bbox, margins 80/80, safe ratio 0.08) the width clamp triggers and the
emitted targetWidth is 601 - 2·86 = 429, which is odd: the CompositingPlan
evenness invariant does not hold for every background size. -/
theorem C8_counterexample_odd_width :
    targetW ⟨601, 1080, 1, 1/2, 80, 80, 8/100⟩ = 429 ∧
    ¬ IsEvenInt (targetW ⟨601, 1080, 1, 1/2, 80, 80, 8/100⟩) := by
  have hW : targetW ⟨601, 1080, 1, 1/2, 80, 80, 8/100⟩ = 429 := by
    norm_num [targetW, baseW, wBound, ratMin, ffTrunc, safeLR, ffRound]
  refine ⟨hW, ?_⟩
  rw [hW]
  rintro ⟨n, hn⟩
  have hz : (429 : ℤ) = 2 * n := by exact_mod_cast hn
  omega

/-- Claim C8 (amended): the bound part of the invariant always holds —
targetWidth ≤ W - 2·safeMargin and targetHeight ≤ H - top - bottom — and
the pre-clamp base dimensions are always even; each emitted dimension is
either that even base value or exactly the clamp bound, so it is even
whenever the triggered bound (W - 2·safeMargin, resp. H - top - bottom)
is even, but not in general. -/
theorem C8_plan_bounds_and_evenness (g : GeomIn) :
    targetW g ≤ g.W - 2 * safeLR g ∧
    targetH g ≤ g.H - g.topMargin - g.bottomMargin ∧
    IsEvenInt (baseW g) ∧ IsEvenInt (baseH g) ∧
    (targetW g = baseW g ∨ targetW g = wBound g) ∧
    (targetH g = baseH g ∨ targetH g = hBound g) := by
  refine ⟨ratMin_le_right _ _, ratMin_le_right _ _, ⟨ffTrunc ((g.H * g.ratio * g.a) / 2), by rw [baseW]; ring⟩, ⟨ffTrunc ((g.H * g.ratio) / 2), by rw [baseH]; ring⟩, ratMin_choice _ _, ratMin_choice _ _⟩

end VideoCompositor

namespace RobustCOSUploader

/-!
Embedding of `RobustCOSUploader.upload_file` and
`RobustCOSUploader.download_file`
(`app/services/robust_cos_uploader.py`, lines 176-311).  Network traffic
is an environment of per-attempt outcomes; the the nested
retry-round/domain loops and the `try/except` control flow are embedded
directly.
-/

/-- Exceptions `upload_file` raises before entering the transfer loop. -/
inductive PyExn
  | fileNotFound
  | valueTooBig
  deriving DecidableEq

/-- Outcome of a single `requests.put` call inside the loop. -/
inductive AttemptOutcome
  | http (code : Nat)
  | timeoutErr
  | connError
  | otherExn
  deriving DecidableEq

/-- Exceptions raised inside the loop body and caught by its `except`
clauses. -/
inductive CaughtExn
  | permissionError
  | valueError
  | requestTimeout
  | requestConnError
  | otherException
  deriving DecidableEq

/-- What one iteration of the inner loop does with its outcome. -/
inductive LoopSignal
  | success
  | continued (caught : Option CaughtExn)
  deriving DecidableEq

/-- `self.domains` (lines 34-37). -/
def cosDomains (bucket region : String) : List String :=
  [bucket ++ ".cos." ++ region ++ ".tencentcos.cn",
   bucket ++ ".cos." ++ region ++ ".myqcloud.com"]

/-- `self.max_retries = 5` (line 40). -/
def maxRetries : Nat := 5

/-- `_get_optimal_domains` (lines 113-129): keep the reachable domains,
falling back to the unfiltered list when none is reachable. -/
def availableDomains (bucket region : String) (reach : String → Bool) : List String :=
  let l := (cosDomains bucket region).filter reach
  if l.isEmpty then cosDomains bucket region else l

/-- The body of one transfer attempt (lines 199-263).  A 2xx returns
immediately.  A 403 executes `raise PermissionError` (line 251) and a 404
executes `raise ValueError` (line 254), but both raises happen inside the
`try` whose handlers end with `except Exception` (line 262), so the
exception is logged and the loop simply continues; every other failure
also continues. -/
def handleAttempt : AttemptOutcome → LoopSignal
  | .http c =>
    if c = 200 ∨ c = 201 then .success
    else if c = 403 then .continued (some .permissionError)
    else if c = 404 then .continued (some .valueError)
    else .continued none
  | .timeoutErr => .continued (some .requestTimeout)
  | .connError => .continued (some .requestConnError)
  | .otherExn => .continued (some .otherException)

/-- Environment of an `upload_file` call: the local file, domain
reachability, and the outcome of the transfer attempt made in retry round
`r` against the `d`-th available domain. -/
structure UploadEnv where
  fileExists : Bool
  fileSize : Nat
  reach : String → Bool
  outcome : Nat → Nat → AttemptOutcome

/-- The signals produced by one retry round, in domain order. -/
def roundSignals (env : UploadEnv) (doms r : Nat) : List LoopSignal :=
  (List.range doms).map fun d => handleAttempt (env.outcome r d)

/-- All signals of the nested loop in execution order (5 retry rounds,
each over every available domain). -/
def allSignals (env : UploadEnv) (doms : Nat) : List LoopSignal :=
  ((List.range maxRetries).map (roundSignals env doms)).flatten

/-- Run the loop: stop at the first success; count the transfer calls
made. -/
def runSignals : List LoopSignal → Bool × Nat
  | [] => (false, 0)
  | s :: rest =>
    match s with
    | .success => (true, 1)
    | .continued _ => let p := runSignals rest; (p.1, p.2 + 1)

/-- `upload_file` (lines 176-272): pre-loop checks raise; the loop returns
`True` on the first 2xx and `False` once every round is exhausted.  The
second component counts the network transfer calls made. -/
def upload_file (bucket region : String) (env : UploadEnv) : Except PyExn Bool × Nat :=
  if ¬ env.fileExists then (.error .fileNotFound, 0)
  else if 5 * 1024 * 1024 * 1024 < env.fileSize then (.error .valueTooBig, 0)
  else
    let p := runSignals (allSignals env (availableDomains bucket region env.reach).length)
    (.ok p.1, p.2)

theorem runSignals_calls_le (l : List LoopSignal) : (runSignals l).2 ≤ l.length := by
  induction l with
  | nil => simp [runSignals]
  | cons s rest ih =>
    cases s with
    | success => simp [runSignals]
    | continued c => simpa [runSignals] using ih

theorem runSignals_no_success (l : List LoopSignal)
    (h : ∀ s ∈ l, s ≠ .success) : runSignals l = (false, l.length) := by
  induction l with
  | nil => simp [runSignals]
  | cons s rest ih =>
    cases s with
    | success => exact absurd rfl (h _ (List.mem_cons_self _ _))
    | continued c =>
      rw [runSignals, ih fun t ht => h t (List.mem_cons_of_mem _ ht)]
      simp

theorem allSignals_length (env : UploadEnv) (doms : Nat) :
    (allSignals env doms).length = maxRetries * doms := by
  rw [allSignals, List.length_flatten]
  have h : ((List.range maxRetries).map (roundSignals env doms)).map List.length
      = List.replicate maxRetries doms := by
    rw [List.map_map]
    have h2 : (List.length ∘ roundSignals env doms) = fun _ => doms := by
      funext r
      simp [roundSignals]
    rw [h2]
    simp [List.map_const']
  rw [h, List.sum_replicate, smul_eq_mul]

theorem upload_calls_bounded (bucket region : String) (env : UploadEnv) :
    (upload_file bucket region env).2
      ≤ maxRetries * (availableDomains bucket region env.reach).length := by
  rw [upload_file]
  split
  · simp
  · split
    · simp
    · simpa [allSignals_length] using
        runSignals_calls_le (allSignals env (availableDomains bucket region env.reach).length)

/-- An upload call in which every transfer attempt returns HTTP 403. -/
def env403 : UploadEnv := ⟨true, 1000, fun _ => true, fun _ _ => .http 403⟩

/-- Claim C1 (code bug): with both domains reachable and every `PUT`
answered by HTTP 403, `upload_file` makes maxRetries × 2 = 10 network
calls and returns `False` — not the single call the claim (and the
in-code comment at line 250, "permission errors are not retried")
prescribe.  The `raise PermissionError` of line 251 is caught by the
handler chain's own `except Exception` (line 262), so the abort never
happens. -/
theorem C1_403_does_not_abort :
    upload_file "bucket" "region" env403 = (.ok false, maxRetries * 2) ∧
    maxRetries * 2 ≠ 1 := by
  exact ⟨rfl, by decide⟩

/-- Claim C6: when every transfer attempt fails with a timeout or a
connection error, `upload_file` makes exactly
`maxRetries × (resolved domains)` transfer calls and then fails; and for
every environment whatsoever the number of calls never exceeds that
bound. -/
theorem C6_persistent_timeout_exact_attempts (bucket region : String) (env : UploadEnv)
    (hex : env.fileExists = true) (hsz : env.fileSize ≤ 5 * 1024 * 1024 * 1024)
    (hout : ∀ r d, env.outcome r d = .timeoutErr ∨ env.outcome r d = .connError) :
    (upload_file bucket region env).2
        = maxRetries * (availableDomains bucket region env.reach).length ∧
    (upload_file bucket region env).1 = .ok false ∧
    ∀ (b2 r2 : String) (env2 : UploadEnv),
      (upload_file b2 r2 env2).2
        ≤ maxRetries * (availableDomains b2 r2 env2.reach).length := by
  have hns : ∀ s ∈ allSignals env (availableDomains bucket region env.reach).length,
      s ≠ LoopSignal.success := by
    intro s hs
    rw [allSignals, List.mem_flatten] at hs
    obtain ⟨row, hrow, hsrow⟩ := hs
    rw [List.mem_map] at hrow
    obtain ⟨r, _, hr⟩ := hrow
    rw [← hr, roundSignals, List.mem_map] at hsrow
    obtain ⟨d, _, hd⟩ := hsrow
    rcases hout r d with h | h <;>
      simp [← hd, h, handleAttempt]
  have hrun := runSignals_no_success _ hns
  have hlen := allSignals_length env (availableDomains bucket region env.reach).length
  rw [upload_file]
  rw [if_neg (by simp [hex]), if_neg (by simpa using hsz)]
  refine ⟨?_, ?_, fun b2 r2 env2 => upload_calls_bounded b2 r2 env2⟩
  · rw [hrun, hlen]
  · rw [hrun]

/-- An upload call in which every transfer attempt times out. -/
def envTimeout : UploadEnv := ⟨true, 1000, fun _ => true, fun _ _ => .timeoutErr⟩

/-- Witness for C6: a persistent timeout with both domains reachable
makes exactly 5 × 2 = 10 transfer calls. -/
theorem C6_persistent_timeout_witness :
    (upload_file "b" "r" envTimeout).2
        = maxRetries * (availableDomains "b" "r" envTimeout.reach).length ∧
    (upload_file "b" "r" envTimeout).1 = .ok false ∧
    ∀ (b2 r2 : String) (env2 : UploadEnv),
      (upload_file b2 r2 env2).2
        ≤ maxRetries * (availableDomains b2 r2 env2.reach).length :=
  C6_persistent_timeout_exact_attempts "b" "r" envTimeout rfl (by decide)
    (fun _ _ => Or.inl rfl)

/-!
`download_file` (lines 274-311): the response is streamed with
`open(local_path, 'wb')` directly at the target path — opening truncates
the target, chunks are appended as they arrive, and any exception during
the stream is caught by the per-domain `except` (line 307), after which
the loop moves to the next domain leaving the partial prefix on disk.
-/

/-- Outcome of one domain's `requests.get` inside `download_file`. -/
inductive DownloadOutcome
  | ok (bytes : List Nat)
  | httpErr (code : Nat)
  | interrupted (written : List Nat)
  | connFail
  deriving DecidableEq

/-- Effect of one domain attempt on the target file: the new content at
the target path and, when the attempt returns, the returned value. -/
def downloadStep (fs : Option (List Nat)) :
    DownloadOutcome → Option (List Nat) × Option Bool
  | .ok bs => (some bs, some true)
  | .httpErr _ => (fs, none)
  | .interrupted p => (some p, none)
  | .connFail => (fs, none)

/-- `download_file` over the per-domain outcomes, threading the content
visible at the target path; returns the result and the final target
content. -/
def download_file : List DownloadOutcome → Option (List Nat) → Bool × Option (List Nat)
  | [], fs => (false, fs)
  | o :: rest, fs =>
    match downloadStep fs o with
    | (fs2, some b) => (b, fs2)
    | (fs2, none) => download_file rest fs2

/-- The claim's reading of the download contract: a failed download never
changes what is visible at the target path. -/
def specAtomicDownload : Prop :=
  ∀ (outs : List DownloadOutcome) (fs0 : Option (List Nat)),
    (download_file outs fs0).1 = false → (download_file outs fs0).2 = fs0

/-- Claim C3 counterexample: a stream interrupted after two chunks
followed by a 404 from the remaining domain returns failure with the
two-chunk prefix visible at the target path: downloads are written
in place, not to a temporary path with an atomic rename. -/
theorem C3_counterexample_partial_file_visible :
    download_file [.interrupted [1, 2], .httpErr 404] none = (false, some [1, 2]) ∧
    ¬ specAtomicDownload := by
  have hrun : download_file [.interrupted [1, 2], .httpErr 404] none
      = (false, some [1, 2]) := rfl
  refine ⟨hrun, fun h => ?_⟩
  have h2 := h [.interrupted [1, 2], .httpErr 404] none (by rw [hrun])
  rw [hrun] at h2
  exact Option.noConfusion h2

theorem download_failures_keep_fs (rest : List DownloadOutcome)
    (h : ∀ o ∈ rest, o = .connFail ∨ ∃ c, o = .httpErr c) :
    ∀ fs, download_file rest fs = (false, fs) := by
  induction rest with
  | nil => intro fs; rfl
  | cons o rest ih =>
    intro fs
    have htail := ih fun t ht => h t (List.mem_cons_of_mem _ ht)
    rcases h o (List.mem_cons_self _ _) with ho | ⟨c, ho⟩ <;>
      subst ho <;> simp [download_file, downloadStep, htail fs]

/-- Claim C3 (amended): `download_file` writes chunks directly to the
target path; when a domain's stream is interrupted after a prefix has
been written and every remaining domain fails without writing, the call
returns `False` with that partial prefix visible at the target path. -/
theorem C3_amended_interrupted_leaves_prefix (p : List Nat)
    (rest : List DownloadOutcome) (fs0 : Option (List Nat))
    (h : ∀ o ∈ rest, o = .connFail ∨ ∃ c, o = .httpErr c) :
    download_file (.interrupted p :: rest) fs0 = (false, some p) := by
  simp [download_file, downloadStep, download_failures_keep_fs rest h (some p)]

/-- Witness for the amended C3: one interrupted domain then one
connection failure leaves the one-chunk prefix `[7]` at the target. -/
theorem C3_amended_witness :
    download_file [.interrupted [7], .connFail] none = (false, some [7]) :=
  C3_amended_interrupted_leaves_prefix [7] [.connFail] none
    (fun o ho => by
      rw [List.mem_singleton] at ho
      exact Or.inl ho)

end RobustCOSUploader

namespace TencentVideoService

/-!
Embedding of `TencentVideoService._wait_for_job_completion`
(`app/services/tencent_video_service.py`, lines 427-474).  The loop polls
`GET /jobs/{jobId}` while `time.time() - start_time < timeout`; `Success`
returns `True`, `Failed` returns `False`, `Submitted`/`Running` sleep 10
seconds, any other state and any query failure sleep 5 seconds, and
falling out of the loop (budget elapsed) returns `False` (line 474) —
the same value as `Failed`.
-/

/-- One status query's observable outcome. -/
inductive PollResp
  | httpFail (code : Nat)
  | state (s : String) (msg : String)
  | exn
  deriving DecidableEq

/-- Whether a query outcome reports the `Success` state. -/
def pollIsSuccess : PollResp → Bool
  | .state s _ => s = "Success"
  | _ => false

/-- The polling loop.  `fuel` dominates the iteration count: each
iteration advances `elapsed` by at least 5, so with `fuel = timeout + 1`
the fuel is never exhausted before the `elapsed < timeout` guard stops
the loop; the fuel-0 fallback returns the same `false` as the loop's
fall-through. -/
def waitAux (resp : Nat → PollResp) (timeout : Nat) : Nat → Nat → Nat → Bool
  | 0, _, _ => false
  | fuel + 1, i, elapsed =>
    if elapsed < timeout then
      match resp i with
      | .state s _ =>
        if s = "Success" then true
        else if s = "Failed" then false
        else if s = "Submitted" ∨ s = "Running" then
          waitAux resp timeout fuel (i + 1) (elapsed + 10)
        else
          waitAux resp timeout fuel (i + 1) (elapsed + 5)
      | .httpFail _ => waitAux resp timeout fuel (i + 1) (elapsed + 5)
      | .exn => waitAux resp timeout fuel (i + 1) (elapsed + 5)
    else false

/-- `_wait_for_job_completion(job_id, timeout=300)` over a stream of
query outcomes. -/
def wait_for_job_completion (resp : Nat → PollResp) (timeout : Nat) : Bool :=
  waitAux resp timeout (timeout + 1) 0 0

/-- Claim C2 counterexample: an all-`Unknown` response stream until the
300-second budget elapses returns `false`, and a stream whose first
response is `Failed` also returns `false`: the returned value is a
`Bool`, so the timeout outcome is identical to — not distinguishable
from — the `Failed` outcome. -/
theorem C2_counterexample_timeout_equals_failed :
    wait_for_job_completion (fun _ => .state "Unknown" "") 300 =
      wait_for_job_completion (fun _ => .state "Failed" "remote error") 300 ∧
    wait_for_job_completion (fun _ => .state "Unknown" "") 300 = false := by
  exact ⟨by decide, by decide⟩

theorem waitAux_no_success (resp : Nat → PollResp) (timeout : Nat)
    (h : ∀ i, pollIsSuccess (resp i) = false) :
    ∀ (fuel i elapsed : Nat), waitAux resp timeout fuel i elapsed = false := by
  intro fuel
  induction fuel with
  | zero => intro i elapsed; rfl
  | succ n ih =>
    intro i elapsed
    rw [waitAux]
    split
    · have hi := h i
      cases hr : resp i with
      | state s msg =>
        rw [hr, pollIsSuccess] at hi
        simp only [decide_eq_false_iff_not] at hi
        dsimp only
        rw [if_neg hi]
        split
        · rfl
        · split <;> exact ih _ _
      | httpFail c => exact ih _ _
      | exn => exact ih _ _
    · rfl

/-- Claim C2 (amended): whenever no `Success` state is observed — in
particular when the job reports `Failed`, and when every response is
unrecognized until the timeout budget elapses — the call returns the one
value `false`; the `Bool` result gives callers no way to tell a timeout
from a remote failure. -/
theorem C2_amended_false_on_failed_and_on_timeout (resp : Nat → PollResp)
    (timeout : Nat) (h : ∀ i, pollIsSuccess (resp i) = false) :
    wait_for_job_completion resp timeout = false :=
  waitAux_no_success resp timeout h (timeout + 1) 0 0

/-- Witness for the amended C2: the all-`Unknown` stream with the default
300-second budget returns `false`. -/
theorem C2_amended_witness :
    wait_for_job_completion (fun _ => .state "Unknown" "") 300 = false :=
  C2_amended_false_on_failed_and_on_timeout (fun _ => .state "Unknown" "") 300
    (fun _ => rfl)

/-!
Embedding of `TencentVideoService._get_queue_id`
(`app/services/tencent_video_service.py`, lines 206-302) and the
`QueueId` handling of `_submit_ci_job` (lines 346-348).

A parsed queue carries an optional id, a state string and a category
string.  (In the Python, `queue.find('QueueType') or queue.find('Category')`
resolves through XML-element truthiness; we embed whatever text that
lookup resolves to as `category`.)
-/

/-- A queue as parsed from the `/ai_queue` listing. -/
structure Queue where
  queueId : Option String
  state : String
  category : String
  deriving DecidableEq

/-- Python truthiness of an optional string (`None` and `""` are falsy). -/
def strTruthy : Option String → Bool
  | none => false
  | some s => s ≠ ""

/-- A queue the first-pass scan can select: a truthy id, AIProcess
category, and a state the scan's two branches react to. -/
def relevantAI (q : Queue) : Bool :=
  decide (strTruthy q.queueId = true ∧ q.category = "AIProcess" ∧
    (q.state = "Paused" ∨ q.state = "Active"))

/-- The first-pass loop over the queue listing (lines 237-264): a Paused
AIProcess queue is activated and selected (break); an Active queue is
recorded as `anyActive` when none is recorded yet, and selected (break)
when its category is AIProcess.  Returns
(selected AIProcess id, first recorded Active id, activation calls). -/
def scanQueues : List Queue → Option String → Option String × Option String × List String
  | [], anyActive => (none, anyActive, [])
  | q :: rest, anyActive =>
    if q.state = "Paused" ∧ strTruthy q.queueId = true ∧ q.category = "AIProcess" then
      (q.queueId, anyActive, [q.queueId.getD ""])
    else if q.state = "Active" ∧ strTruthy q.queueId = true then
      let anyActive2 := if anyActive.isNone then q.queueId else anyActive
      if q.category = "AIProcess" then (q.queueId, anyActive2, [])
      else scanQueues rest anyActive2
    else scanQueues rest anyActive

/-- The retry scan after auto-provisioning (lines 286-294): the first
queue with a truthy id and AIProcess category is returned, activating it
first when it is Paused. -/
def retryFind : List Queue → Option (String × Bool)
  | [] => none
  | q :: rest =>
    if strTruthy q.queueId = true ∧ q.category = "AIProcess" then
      some (q.queueId.getD "", q.state = "Paused")
    else retryFind rest

/-- Environment of a `_get_queue_id` call: the first listing response
(`none` for a non-200 status or a parse exception), the result of
`_open_ai_bucket`, and the retry listing response. -/
structure QueueEnv where
  firstResp : Option (List Queue)
  openOk : Bool
  secondResp : Option (List Queue)

/-- Observable decision of `_get_queue_id`: the returned id (`""` when no
queue is used), whether `POST /ai_bucket` was called, whether the
discovery query was retried, and the activation calls that were made. -/
structure QueueDecision where
  queueId : String
  openCalled : Bool
  retried : Bool
  activated : List String
  deriving DecidableEq

/-- `_get_queue_id` (lines 206-302). -/
def get_queue_id (env : QueueEnv) : QueueDecision :=
  match env.firstResp with
  | none => ⟨"", false, false, []⟩
  | some qs =>
    let r := scanQueues qs none
    if strTruthy r.1 = true then ⟨r.1.getD "", false, false, r.2.2⟩
    else if strTruthy r.2.1 = true then ⟨"", false, false, r.2.2⟩
    else if env.openOk then
      match env.secondResp with
      | some qs2 =>
        match retryFind qs2 with
        | some (qid, wasPaused) =>
          ⟨qid, true, true, r.2.2 ++ if wasPaused then [qid] else []⟩
        | none => ⟨"", true, true, r.2.2⟩
      | none => ⟨"", true, true, r.2.2⟩
    else ⟨"", true, false, r.2.2⟩

/-- The `QueueId` field of the job description built by `_submit_ci_job`:
attached only when `_get_queue_id` returned a non-empty id (lines
346-348). -/
def jobQueueIdField (queueId : String) : Option String :=
  if queueId = "" then none else some queueId

/-- The claim's reading of the first selection rule: whenever an Active
AIProcess queue (with a usable id) appears in the listing, the id the
call returns belongs to an Active AIProcess queue of that listing. -/
def specSelectsActiveAI : Prop :=
  ∀ (env : QueueEnv) (qs : List Queue), env.firstResp = some qs →
    (∃ q ∈ qs, q.state = "Active" ∧ q.category = "AIProcess" ∧ strTruthy q.queueId = true) →
    ∃ q ∈ qs, q.state = "Active" ∧ q.category = "AIProcess" ∧
      q.queueId = some (get_queue_id env).queueId

/-- The listing that breaks the claim: a Paused AIProcess queue listed
before an Active AIProcess queue. -/
def qsPausedFirst : List Queue :=
  [⟨some "q1", "Paused", "AIProcess"⟩, ⟨some "q2", "Active", "AIProcess"⟩]

/-- Claim C7 counterexample: with a Paused AIProcess queue listed before
an Active AIProcess one, the scan activates and selects the Paused queue
`q1` and never reaches the Active queue `q2`: the returned id does not
belong to any Active queue of the listing, refuting the claim's first
clause. -/
theorem C7_counterexample_paused_preempts_active :
    get_queue_id ⟨some qsPausedFirst, false, none⟩ = ⟨"q1", false, false, ["q1"]⟩ ∧
    ¬ specSelectsActiveAI := by
  have hrun : get_queue_id ⟨some qsPausedFirst, false, none⟩
      = ⟨"q1", false, false, ["q1"]⟩ := by decide
  refine ⟨hrun, fun h => ?_⟩
  have h2 := h ⟨some qsPausedFirst, false, none⟩ qsPausedFirst rfl
    ⟨⟨some "q2", "Active", "AIProcess"⟩, by decide, rfl, rfl, rfl⟩
  rw [hrun] at h2
  revert h2
  decide

theorem scan_find_relevant (qs : List Queue) (q : Queue)
    (h : qs.find? relevantAI = some q) :
    ∀ acc, (scanQueues qs acc).1 = q.queueId ∧
      (scanQueues qs acc).2.2 = (if q.state = "Paused" then [q.queueId.getD ""] else []) := by
  induction qs with
  | nil => simp [List.find?] at h
  | cons q0 rest ih =>
    intro acc
    by_cases hrel : relevantAI q0 = true
    · rw [List.find?_cons_of_pos _ hrel] at h
      have hq : q0 = q := Option.some.inj h
      subst hq
      rw [relevantAI, decide_eq_true_iff] at hrel
      obtain ⟨htr, hcat, hstate⟩ := hrel
      rcases hstate with hP | hA
      · rw [scanQueues, if_pos ⟨hP, htr, hcat⟩, hP]
        exact ⟨rfl, rfl⟩
      · have hnp : ¬ (q0.state = "Paused" ∧ strTruthy q0.queueId = true ∧
            q0.category = "AIProcess") := by
          rintro ⟨hp, -, -⟩
          rw [hA] at hp
          exact absurd hp (by decide)
        rw [scanQueues, if_neg hnp, if_pos ⟨hA, htr⟩, if_pos hcat, hA]
        exact ⟨rfl, rfl⟩
    · rw [List.find?_cons_of_neg _ hrel] at h
      rw [relevantAI, decide_eq_true_iff] at hrel
      have hnp : ¬ (q0.state = "Paused" ∧ strTruthy q0.queueId = true ∧
          q0.category = "AIProcess") := by
        rintro ⟨hp, htr, hcat⟩
        exact hrel ⟨htr, hcat, Or.inl hp⟩
      by_cases hact : q0.state = "Active" ∧ strTruthy q0.queueId = true
      · have hncat : ¬ q0.category = "AIProcess" := by
          intro hcat
          exact hrel ⟨hact.2, hcat, Or.inr hact.1⟩
        rw [scanQueues, if_neg hnp, if_pos hact, if_neg hncat]
        exact ih h _
      · rw [scanQueues, if_neg hnp, if_neg hact]
        exact ih h _

theorem scan_ai_none (qs : List Queue) (h : ∀ q ∈ qs, relevantAI q = false) :
    ∀ acc, (scanQueues qs acc).1 = none := by
  induction qs with
  | nil => intro acc; rfl
  | cons q0 rest ih =>
    intro acc
    have h0 := h q0 (List.mem_cons_self _ _)
    rw [relevantAI, decide_eq_false_iff_not] at h0
    have htail := fun t ht => h t (List.mem_cons_of_mem _ ht)
    have hnp : ¬ (q0.state = "Paused" ∧ strTruthy q0.queueId = true ∧
        q0.category = "AIProcess") := by
      rintro ⟨hp, htr, hcat⟩
      exact h0 ⟨htr, hcat, Or.inl hp⟩
    by_cases hact : q0.state = "Active" ∧ strTruthy q0.queueId = true
    · have hncat : ¬ q0.category = "AIProcess" := fun hcat =>
        h0 ⟨hact.2, hcat, Or.inr hact.1⟩
      rw [scanQueues, if_neg hnp, if_pos hact, if_neg hncat]
      exact ih htail _
    · rw [scanQueues, if_neg hnp, if_neg hact]
      exact ih htail _

theorem scan_anyActive_truthy (qs : List Queue)
    (h : ∀ q ∈ qs, relevantAI q = false) :
    ∀ acc, (acc = none ∨ strTruthy acc = true) →
      ((∃ q ∈ qs, q.state = "Active" ∧ strTruthy q.queueId = true) ∨ strTruthy acc = true) →
      strTruthy (scanQueues qs acc).2.1 = true := by
  induction qs with
  | nil =>
    intro acc _ hex
    rcases hex with ⟨q, hq, -⟩ | hacc
    · exact absurd hq (List.not_mem_nil _)
    · exact hacc
  | cons q0 rest ih =>
    intro acc hinv hex
    have h0 := h q0 (List.mem_cons_self _ _)
    rw [relevantAI, decide_eq_false_iff_not] at h0
    have htail := fun t ht => h t (List.mem_cons_of_mem _ ht)
    have hnp : ¬ (q0.state = "Paused" ∧ strTruthy q0.queueId = true ∧
        q0.category = "AIProcess") := by
      rintro ⟨hp, htr, hcat⟩
      exact h0 ⟨htr, hcat, Or.inl hp⟩
    by_cases hact : q0.state = "Active" ∧ strTruthy q0.queueId = true
    · have hncat : ¬ q0.category = "AIProcess" := fun hcat =>
        h0 ⟨hact.2, hcat, Or.inr hact.1⟩
      rw [scanQueues, if_neg hnp, if_pos hact, if_neg hncat]
      rcases hinv with hn | htr
      · subst hn
        exact ih htail _ (Or.inr hact.2) (Or.inr (by simpa using hact.2))
      · have hkeep : (if acc.isNone then q0.queueId else acc) = acc := by
          cases acc with
          | none => exact absurd htr (by simp [strTruthy])
          | some s => rfl

        rw [hkeep]
        exact ih htail _ (Or.inr htr) (Or.inr htr)
    · rw [scanQueues, if_neg hnp, if_neg hact]
      refine ih htail _ hinv ?_
      rcases hex with ⟨q, hq, hqa⟩ | htr
      · rcases List.mem_cons.mp hq with hq0 | hqr
        · subst hq0
          exact absurd ⟨hqa.1, hqa.2⟩ hact
        · exact Or.inl ⟨q, hqr, hqa⟩
      · exact Or.inr htr

/-- Claim C7 (amended): queue selection follows listing order.  (1) The
first AIProcess queue with a usable id that is Paused or Active is
selected — a Paused one is first activated — and no enable-capability
call is made; an Active AIProcess queue is therefore selected only when
no Paused AIProcess queue precedes it.  (2) If no such AIProcess queue
exists but some Active queue does, no queue is selected and the job
description omits QueueId.  (3) If the listing is empty, `POST
/ai_bucket` is issued and discovery is retried exactly once when that
call succeeds (not retried when it fails). -/
theorem C7_amended_listing_order_selection (env : QueueEnv) (qs : List Queue)
    (h : env.firstResp = some qs) :
    (∀ q : Queue, qs.find? relevantAI = some q →
        (get_queue_id env).queueId = q.queueId.getD "" ∧
        (q.state = "Paused" → (get_queue_id env).activated = [q.queueId.getD ""]) ∧
        (get_queue_id env).openCalled = false) ∧
    ((∀ q ∈ qs, relevantAI q = false) →
      (∃ q ∈ qs, q.state = "Active" ∧ strTruthy q.queueId = true) →
        (get_queue_id env).queueId = "" ∧ (get_queue_id env).openCalled = false ∧
        jobQueueIdField (get_queue_id env).queueId = none) ∧
    (qs = [] →
        (get_queue_id env).openCalled = true ∧ (get_queue_id env).retried = env.openOk) := by
  obtain ⟨fr, openOk, sr⟩ := env
  simp only at h
  subst h
  refine ⟨?_, ?_, ?_⟩
  · intro q hfind
    obtain ⟨hai, hacts⟩ := scan_find_relevant qs q hfind none
    have hrel := List.find?_some hfind
    rw [relevantAI, decide_eq_true_iff] at hrel
    have htr : strTruthy (scanQueues qs none).1 = true := by rw [hai]; exact hrel.1
    have hg : get_queue_id ⟨some qs, openOk, sr⟩ =
        ⟨(scanQueues qs none).1.getD "", false, false, (scanQueues qs none).2.2⟩ := by
      rw [get_queue_id]
      dsimp only
      rw [if_pos htr]
    rw [hg]
    exact ⟨by dsimp only; rw [hai], fun hp => by dsimp only; rw [hacts, if_pos hp], rfl⟩
  · intro hnone hex
    have hai := scan_ai_none qs hnone none
    have hany := scan_anyActive_truthy qs hnone none (Or.inl rfl) (Or.inl hex)
    have hg : get_queue_id ⟨some qs, openOk, sr⟩ =
        ⟨"", false, false, (scanQueues qs none).2.2⟩ := by
      rw [get_queue_id]
      dsimp only
      rw [if_neg (by rw [hai]; decide), if_pos hany]
    rw [hg]
    exact ⟨rfl, rfl, rfl⟩
  · intro hempty
    subst hempty
    rw [get_queue_id]
    dsimp only
    cases openOk with
    | false => exact ⟨rfl, rfl⟩
    | true =>
      cases sr with
      | none => exact ⟨rfl, rfl⟩
      | some qs2 =>
        cases hrf : retryFind qs2 with
        | none => simp [scanQueues, strTruthy, hrf]
        | some p => simp [scanQueues, strTruthy, hrf]

/-- Witness for the amended C7: a listing whose first relevant AIProcess
queue is Paused (id "qa") yields selection of "qa" with an activation
call; and an empty listing with a successful enable call retries
discovery once. -/
theorem C7_amended_witness :
    (get_queue_id ⟨some qsPausedFirst, false, none⟩).queueId = "q1" ∧
    (get_queue_id ⟨some qsPausedFirst, false, none⟩).activated = ["q1"] ∧
    (get_queue_id ⟨some ([] : List Queue), true, some []⟩).openCalled = true ∧
    (get_queue_id ⟨some ([] : List Queue), true, some []⟩).retried = true := by
  have h1 := (C7_amended_listing_order_selection ⟨some qsPausedFirst, false, none⟩
    qsPausedFirst rfl).1 ⟨some "q1", "Paused", "AIProcess"⟩ (by decide)
  have h3 := (C7_amended_listing_order_selection ⟨some ([] : List Queue), true, some []⟩
    [] rfl).2.2 rfl
  exact ⟨h1.1, h1.2.1 rfl, h3.1, h3.2⟩

/-!
Embedding of `TencentVideoService.remove_background`
(`app/services/tencent_video_service.py`, lines 588-652).  The whole body
sits in one `try` whose `except Exception` returns the failure dict of
lines 644-652, so every failure path is a returned dict.  The failure
causes raised by the steps `remove_background` drives, with the message
each one carries, are enumerated below.  (The wall-clock
`processing_time` entry of both dicts is not modelled.)
-/

/-- The exceptions `_process_with_ci_api` (lines 476-522) can re-raise
into `remove_background`, by cause. -/
inductive ProcessFailure
  | uploaderNotInitialized
  | uploadFailed
  | submitFailed (detail : String)
  | jobFailed
  | downloadFailed
  deriving DecidableEq

/-- `str(e)` for each cause: the literal messages of lines 158, 162, 408,
499 and 173. -/
def processFailureMsg : ProcessFailure → String
  | .uploaderNotInitialized => "COS上传器未初始化"
  | .uploadFailed => "文件上传失败"
  | .submitFailed d => "万象API调用失败: " ++ d
  | .jobFailed => "万象API处理失败"
  | .downloadFailed => "文件下载失败"

/-- The wrapper message of `upload_background_image` (line 586). -/
def bgUploadFailureMsg (detail : String) : String :=
  "背景图片上传失败: " ++ detail

/-- The background URL `upload_background_image` builds on success
(line 579). -/
def bgUploadedUrl (bucket region bgKey : String) : String :=
  "https://" ++ bucket ++ ".cos." ++ region ++ ".myqcloud.com/" ++ bgKey

/-- The result dict of `remove_background`, with `error` present only on
failure and `background_mode`/`background_url` only on success. -/
structure RBResult where
  success : Bool
  output_path : String
  original_size : Nat
  processed_size : Nat
  service : String
  error : Option String
  background_mode : Option String
  background_url : Option String
  deriving DecidableEq

/-- The failure dict (lines 644-652). -/
def failureDict (msg : String) : RBResult :=
  ⟨false, "", 0, 0, "failed", some msg, none, none⟩

/-- Environment of one `remove_background` call. -/
structure RBEnv where
  videoExists : Bool
  bucketConfigured : Bool
  originalSize : Nat
  bgKey : String
  bgUploadFails : Option String
  processOutcome : Except ProcessFailure String
  outputExists : Bool
  processedSize : Nat

/-- `remove_background` (lines 588-652): existence and configuration
checks raise into the outer handler; a background file is uploaded only
when a file path is truthy and no background URL is; `background_mode`
is `"Combination"` exactly when the final background URL is truthy
(line 637). -/
def remove_background (bucket region videoPath : String) (env : RBEnv)
    (background_url background_file_path : Option String) : RBResult :=
  if env.videoExists = false then failureDict ("视频文件不存在: " ++ videoPath)
  else if env.bucketConfigured = false then failureDict "未配置COS存储桶"
  else
    match (if strTruthy background_file_path = true ∧ strTruthy background_url = false then
             match env.bgUploadFails with
             | some d => Except.error (bgUploadFailureMsg d)
             | none => Except.ok (some (bgUploadedUrl bucket region env.bgKey))
           else Except.ok background_url : Except String (Option String)) with
    | .error msg => failureDict msg
    | .ok finalBg =>
      match env.processOutcome with
      | .error f => failureDict (processFailureMsg f)
      | .ok outPath =>
        ⟨true, outPath, env.originalSize,
         if env.outputExists then env.processedSize else 0,
         "tencent_ci", none,
         some (if strTruthy finalBg = true then "Combination" else "Foreground"),
         finalBg⟩

theorem append_ne_empty (p s : String) (hp : 0 < p.length) : p ++ s ≠ "" := by
  intro h
  have hl := congrArg String.length h
  rw [String.length_append] at hl
  have : String.length "" = 0 := rfl
  omega

theorem processFailureMsg_ne_empty (f : ProcessFailure) : processFailureMsg f ≠ "" := by
  cases f <;> first
    | exact append_ne_empty _ _ (by decide)
    | decide

theorem bgUploadedUrl_ne_empty (bucket region bgKey : String) :
    bgUploadedUrl bucket region bgKey ≠ "" := by
  intro h
  have hl := congrArg String.length h
  rw [bgUploadedUrl] at hl
  simp only [String.length_append] at hl
  have h8 : String.length "https://" = 8 := rfl
  have h0 : String.length "" = 0 := rfl
  omega

/-- Claim C10: `remove_background` always returns a result dict; on any
failure the dict has `success = False`, empty `output_path`, zero sizes
and a non-empty error message, and on success `background_mode` is
`"Combination"` exactly when a background URL was supplied or a
background file was uploaded, else `"Foreground"`. -/
theorem C10_result_contract (bucket region videoPath : String) (env : RBEnv)
    (bu bf : Option String) :
    ((remove_background bucket region videoPath env bu bf).success = false →
      (remove_background bucket region videoPath env bu bf).output_path = "" ∧
      (remove_background bucket region videoPath env bu bf).original_size = 0 ∧
      (remove_background bucket region videoPath env bu bf).processed_size = 0 ∧
      ∃ msg, (remove_background bucket region videoPath env bu bf).error = some msg ∧
        msg ≠ "") ∧
    ((remove_background bucket region videoPath env bu bf).success = true →
      (remove_background bucket region videoPath env bu bf).background_mode =
        some (if (strTruthy bu || strTruthy bf) = true then "Combination"
              else "Foreground")) := by
  rw [remove_background]
  by_cases h1 : env.videoExists = false
  · rw [if_pos h1]
    exact ⟨fun _ => ⟨rfl, rfl, rfl, _, rfl,
      append_ne_empty _ _ (by decide)⟩, fun hs => Bool.noConfusion hs⟩
  · rw [if_neg h1]
    by_cases h2 : env.bucketConfigured = false
    · rw [if_pos h2]
      exact ⟨fun _ => ⟨rfl, rfl, rfl, _, rfl, by decide⟩, fun hs => Bool.noConfusion hs⟩
    · rw [if_neg h2]
      by_cases h3 : strTruthy bf = true ∧ strTruthy bu = false
      · rw [if_pos h3]
        cases hb : env.bgUploadFails with
        | some d =>
          refine ⟨fun _ => ⟨rfl, rfl, rfl, _, rfl,
            append_ne_empty _ _ (by decide)⟩, fun hs => Bool.noConfusion hs⟩
        | none =>
          cases hp : env.processOutcome with
          | error f =>
            exact ⟨fun _ => ⟨rfl, rfl, rfl, _, rfl, processFailureMsg_ne_empty f⟩,
              fun hs => Bool.noConfusion hs⟩
          | ok outPath =>
            refine ⟨fun hs => Bool.noConfusion hs, fun _ => ?_⟩
            have hurl : strTruthy (some (bgUploadedUrl bucket region env.bgKey)) = true := by
              rw [strTruthy, decide_eq_true_iff]
              exact bgUploadedUrl_ne_empty bucket region env.bgKey
            dsimp only
            rw [hurl, h3.1, Bool.or_true]
      · rw [if_neg h3]
        cases hp : env.processOutcome with
        | error f =>
          exact ⟨fun _ => ⟨rfl, rfl, rfl, _, rfl, processFailureMsg_ne_empty f⟩,
            fun hs => Bool.noConfusion hs⟩
        | ok outPath =>
          refine ⟨fun hs => Bool.noConfusion hs, fun _ => ?_⟩
          dsimp only
          by_cases hbu : strTruthy bu = true
          · rw [hbu, Bool.true_or]
          · rw [Bool.not_eq_true] at hbu
            have hbf : strTruthy bf = false := by
              by_contra hbf
              rw [Bool.not_eq_false] at hbf
              exact h3 ⟨hbf, hbu⟩
            rw [hbu, hbf]
            rfl

/-- Witness for C10: a call on a missing video file returns the failure
dict with a non-empty error, and a fully successful call with a
background file returns `background_mode = "Combination"`. -/
theorem C10_result_contract_witness :
    (remove_background "b" "r" "/v.mp4"
        ⟨false, true, 0, "k", none, .ok "/out.mp4", true, 9⟩ none none).output_path = "" ∧
    (∃ msg, (remove_background "b" "r" "/v.mp4"
        ⟨false, true, 0, "k", none, .ok "/out.mp4", true, 9⟩ none none).error = some msg ∧
        msg ≠ "") ∧
    (remove_background "b" "r" "/v.mp4"
        ⟨true, true, 7, "k", none, .ok "/out.mp4", true, 9⟩ none
        (some "/bg.png")).background_mode = some "Combination" := by
  have h1 := (C10_result_contract "b" "r" "/v.mp4"
    ⟨false, true, 0, "k", none, .ok "/out.mp4", true, 9⟩ none none).1 rfl
  have h2 := (C10_result_contract "b" "r" "/v.mp4"
    ⟨true, true, 7, "k", none, .ok "/out.mp4", true, 9⟩ none (some "/bg.png")).2 rfl
  refine ⟨h1.1, h1.2.2.2, ?_⟩
  rw [h2]
  rfl

end TencentVideoService

namespace Signing

/-!
Embedding of the COS request signing algorithm shared by
`RobustCOSUploader._generate_authorization`
(`app/services/robust_cos_uploader.py`, lines 48-95) and
`TencentVideoService._generate_authorization`
(`app/services/tencent_video_service.py`, lines 91-134).  SHA-1 and
HMAC-SHA1 (`hashlib.sha1`, `hmac.new(..., hashlib.sha1)`) are embedded in
full over byte lists, with 32-bit words as `Nat` reduced by `% 2^32`.
-/

def u32 (x : Nat) : Nat := x % 4294967296

def rotl (n x : Nat) : Nat := u32 ((x <<< n) + (x >>> (32 - n)))

def sha1K (t : Nat) : Nat :=
  if t < 20 then 1518500249
  else if t < 40 then 1859775393
  else if t < 60 then 2400959708
  else 3395469782

def sha1F (t b c d : Nat) : Nat :=
  if t < 20 then (b &&& c) ||| ((b ^^^ 4294967295) &&& d)
  else if t < 40 then b ^^^ c ^^^ d
  else if t < 60 then (b &&& c) ||| (b &&& d) ||| (c &&& d)
  else b ^^^ c ^^^ d

def sha1Pad (msg : List Nat) : List Nat :=
  msg ++ [128] ++ List.replicate ((119 - msg.length % 64) % 64) 0
    ++ (List.range 8).map (fun i => ((msg.length * 8) >>> (8 * (7 - i))) &&& 255)

def chunks64Aux : Nat → List Nat → List (List Nat)
  | 0, _ => []
  | _ + 1, [] => []
  | n + 1, b :: rest => ((b :: rest).take 64) :: chunks64Aux n ((b :: rest).drop 64)

def chunks64 (l : List Nat) : List (List Nat) := chunks64Aux l.length l

def blockWords (b : List Nat) : List Nat :=
  (List.range 16).map fun i =>
    ((b.getD (4 * i) 0) <<< 24) + ((b.getD (4 * i + 1) 0) <<< 16)
      + ((b.getD (4 * i + 2) 0) <<< 8) + b.getD (4 * i + 3) 0

def sha1Schedule (ws : List Nat) : List Nat :=
  (List.range 64).foldl (fun acc i =>
    acc ++ [rotl 1 ((acc.getD (i + 13) 0) ^^^ (acc.getD (i + 8) 0)
      ^^^ (acc.getD (i + 2) 0) ^^^ (acc.getD i 0))]) ws

abbrev H5 := Nat × Nat × Nat × Nat × Nat

def sha1Rounds (w : List Nat) (st : H5) : H5 :=
  (List.range 80).foldl (fun st t =>
    let temp := u32 (rotl 5 st.1 + sha1F t st.2.1 st.2.2.1 st.2.2.2.1
      + st.2.2.2.2 + sha1K t + w.getD t 0)
    (temp, st.1, rotl 30 st.2.1, st.2.2.1, st.2.2.2.1)) st

def sha1Compress (h : H5) (block : List Nat) : H5 :=
  let st := sha1Rounds (sha1Schedule (blockWords block)) h
  (u32 (h.1 + st.1), u32 (h.2.1 + st.2.1), u32 (h.2.2.1 + st.2.2.1),
   u32 (h.2.2.2.1 + st.2.2.2.1), u32 (h.2.2.2.2 + st.2.2.2.2))

def sha1Init : H5 := (1732584193, 4023233417, 2562383102, 271733878, 3285377520)

def sha1Digest (msg : List Nat) : List Nat :=
  let h := (chunks64 (sha1Pad msg)).foldl sha1Compress sha1Init
  ([h.1, h.2.1, h.2.2.1, h.2.2.2.1, h.2.2.2.2].map fun x =>
    [(x >>> 24) &&& 255, (x >>> 16) &&& 255, (x >>> 8) &&& 255, x &&& 255]).flatten

def hexDigitChar (n : Nat) : Char := Char.ofNat (if n < 10 then 48 + n else 87 + n)

def bytesToHex (bs : List Nat) : String :=
  String.mk ((bs.map fun b => [hexDigitChar (b / 16), hexDigitChar (b % 16)]).flatten)

def sha1Hex (msg : List Nat) : String := bytesToHex (sha1Digest msg)

def utf8EncodeCharNat (n : Nat) : List Nat :=
  if n < 128 then [n]
  else if n < 2048 then [192 + n / 64, 128 + n % 64]
  else if n < 65536 then [224 + n / 4096, 128 + (n / 64) % 64, 128 + n % 64]
  else [240 + n / 262144, 128 + (n / 4096) % 64, 128 + (n / 64) % 64, 128 + n % 64]

def utf8Bytes (s : String) : List Nat :=
  (s.data.map fun c => utf8EncodeCharNat c.toNat).flatten

def hmacKeyBlock (key : List Nat) : List Nat :=
  let k := if 64 < key.length then sha1Digest key else key
  k ++ List.replicate (64 - k.length) 0

def hmacSha1 (key msg : List Nat) : List Nat :=
  let kb := hmacKeyBlock key
  sha1Digest ((kb.map fun b => b ^^^ 92) ++ sha1Digest ((kb.map fun b => b ^^^ 54) ++ msg))

def hmacSha1Hex (key msg : List Nat) : String := bytesToHex (hmacSha1 key msg)

/-- FIPS 180-1 test vector, anchoring the SHA-1 embedding. -/
theorem sha1_test_vector_abc :
    sha1Hex (utf8Bytes "abc") = "a9993e364706816aba3e25717850c26c9cd0d89d" := by
  decide

/-- RFC 2202 test vector, anchoring the HMAC-SHA1 embedding. -/
theorem hmacSha1_test_vector_fox :
    hmacSha1Hex (utf8Bytes "key") (utf8Bytes "The quick brown fox jumps over the lazy dog")
      = "de7c9b85b8b78aa6bc8a7a36f70a90701c9db4d9" := by
  decide

/-- `str.lower()` on the ASCII strings the signer receives
(`Char.toLower` lowercases exactly the ASCII uppercase range). -/
def strToLower (s : String) : String := String.mk (s.data.map Char.toLower)

/-- Python's `urllib.parse.quote` safe set with the default `safe='/'`:
ASCII letters, digits, `_`, `.`, `-`, `~` and `/`. -/
def quoteSafeByte (c : Nat) : Bool :=
  (65 ≤ c && c ≤ 90) || (97 ≤ c && c ≤ 122) || (48 ≤ c && c ≤ 57)
    || c == 95 || c == 46 || c == 45 || c == 126 || c == 47

/-- Uppercase hex digit, as `quote` emits (`%20`). -/
def upperHexDigit (n : Nat) : Char := Char.ofNat (if n < 10 then 48 + n else 55 + n)

/-- `urllib.parse.quote(uri, safe='/')` (robust_cos_uploader.py line 65). -/
def pythonQuote (s : String) : String :=
  String.mk (((utf8Bytes s).map fun b =>
    if quoteSafeByte b then [Char.ofNat b]
    else [Char.ofNat 37, upperHexDigit (b / 16), upperHexDigit (b % 16)]).flatten)

/-- `key_time = f"{now};{expired}"` with `expired = now + 3600`. -/
def keyTime (now : Nat) : String := Nat.repr now ++ ";" ++ Nat.repr (now + 3600)

/-- `RobustCOSUploader._generate_authorization(method, uri, host)`
(lines 48-95), with the current UTC timestamp passed explicitly.  The
request URI is percent-normalized with `quote(uri, safe='/')` before it
enters the HttpString. -/
def cosGenerateAuthorization (secretKey secretId method uri host : String)
    (now : Nat) : String :=
  let kt := keyTime now
  let signKey := hmacSha1Hex (utf8Bytes secretKey) (utf8Bytes kt)
  let normalizedUri := pythonQuote uri
  let httpString := strToLower method ++ "\n" ++ normalizedUri ++ "\n\nhost="
    ++ strToLower host ++ "\n"
  let stringToSign := "sha1\n" ++ kt ++ "\n" ++ sha1Hex (utf8Bytes httpString) ++ "\n"
  let signature := hmacSha1Hex (utf8Bytes signKey) (utf8Bytes stringToSign)
  "q-sign-algorithm=sha1&q-ak=" ++ secretId ++ "&q-sign-time=" ++ kt
    ++ "&q-key-time=" ++ kt ++ "&q-header-list=host&q-url-param-list=&q-signature="
    ++ signature

/-- `TencentVideoService._generate_authorization(method, uri)` (lines
91-134): same construction, but the URI enters the HttpString as given
(no percent-normalization) and the host is the fixed CI endpoint
`{bucket}.ci.{region}.myqcloud.com`, not lowercased. -/
def ciGenerateAuthorization (secretKey secretId bucket region method uri : String)
    (now : Nat) : String :=
  let kt := keyTime now
  let signKey := hmacSha1Hex (utf8Bytes secretKey) (utf8Bytes kt)
  let httpString := strToLower method ++ "\n" ++ uri ++ "\n\nhost="
    ++ (bucket ++ ".ci." ++ region ++ ".myqcloud.com") ++ "\n"
  let stringToSign := "sha1\n" ++ kt ++ "\n" ++ sha1Hex (utf8Bytes httpString) ++ "\n"
  let signature := hmacSha1Hex (utf8Bytes signKey) (utf8Bytes stringToSign)
  "q-sign-algorithm=sha1&q-ak=" ++ secretId ++ "&q-sign-time=" ++ kt
    ++ "&q-key-time=" ++ kt ++ "&q-header-list=host&q-url-param-list=&q-signature="
    ++ signature

/-- The token exactly as the spec's section 4.1 words construct it: the
HttpString uses the given URI as-is (`lower(method) + "\n" + uri + "\n" +
"" + "\n" + "host=" + lower(host) + "\n"`); `signKey` is the hex digest of
HMAC-SHA1(secretKey, KeyTime) as in both implementations. -/
def specAuthorizationToken (secretKey secretId method uri host : String)
    (now : Nat) : String :=
  let kt := keyTime now
  let signKey := hmacSha1Hex (utf8Bytes secretKey) (utf8Bytes kt)
  let httpString := strToLower method ++ "\n" ++ uri ++ "\n\nhost="
    ++ strToLower host ++ "\n"
  let stringToSign := "sha1\n" ++ kt ++ "\n" ++ sha1Hex (utf8Bytes httpString) ++ "\n"
  let signature := hmacSha1Hex (utf8Bytes signKey) (utf8Bytes stringToSign)
  "q-sign-algorithm=sha1&q-ak=" ++ secretId ++ "&q-sign-time=" ++ kt
    ++ "&q-key-time=" ++ kt ++ "&q-header-list=host&q-url-param-list=&q-signature="
    ++ signature

theorem cos_token_value :
    cosGenerateAuthorization "sk" "id" "PUT" "/a b" "h.example.com" 0
      = "q-sign-algorithm=sha1&q-ak=id&q-sign-time=0;3600&q-key-time=0;3600&q-header-list=host&q-url-param-list=&q-signature=86a1d82eec09baab5643184b5ff86190a112a701" := by
  have hkt : keyTime 0 = "0;3600" := by decide
  have hsk : hmacSha1Hex (utf8Bytes "sk") (utf8Bytes "0;3600")
      = "0ded6a21377e912c4918b35856421728df926f5a" := by decide
  have hq : pythonQuote "/a b" = "/a%20b" := by decide
  have hm : strToLower "PUT" = "put" := by decide
  have hh : strToLower "h.example.com" = "h.example.com" := by decide
  have hcat1 : ("put" ++ "\n" ++ "/a%20b" ++ "\n\nhost=" ++ "h.example.com" ++ "\n" : String)
      = "put\n/a%20b\n\nhost=h.example.com\n" := by decide
  have hsha : sha1Hex (utf8Bytes "put\n/a%20b\n\nhost=h.example.com\n")
      = "200d58a79219c47ad0f72f655a516d38071154b3" := by decide
  have hcat2 : ("sha1\n" ++ "0;3600" ++ "\n" ++ "200d58a79219c47ad0f72f655a516d38071154b3" ++ "\n" : String)
      = "sha1\n0;3600\n200d58a79219c47ad0f72f655a516d38071154b3\n" := by decide
  have hsig : hmacSha1Hex (utf8Bytes "0ded6a21377e912c4918b35856421728df926f5a")
      (utf8Bytes "sha1\n0;3600\n200d58a79219c47ad0f72f655a516d38071154b3\n")
      = "86a1d82eec09baab5643184b5ff86190a112a701" := by decide
  simp only [cosGenerateAuthorization]
  rw [hkt, hm, hh, hq, hcat1, hsha, hcat2, hsk, hsig]
  decide

theorem spec_token_value :
    specAuthorizationToken "sk" "id" "PUT" "/a b" "h.example.com" 0
      = "q-sign-algorithm=sha1&q-ak=id&q-sign-time=0;3600&q-key-time=0;3600&q-header-list=host&q-url-param-list=&q-signature=25940a65a031cd6d6b0c036922e087b6be5378e1" := by
  have hkt : keyTime 0 = "0;3600" := by decide
  have hsk : hmacSha1Hex (utf8Bytes "sk") (utf8Bytes "0;3600")
      = "0ded6a21377e912c4918b35856421728df926f5a" := by decide
  have hm : strToLower "PUT" = "put" := by decide
  have hh : strToLower "h.example.com" = "h.example.com" := by decide
  have hcat1 : ("put" ++ "\n" ++ "/a b" ++ "\n\nhost=" ++ "h.example.com" ++ "\n" : String)
      = "put\n/a b\n\nhost=h.example.com\n" := by decide
  have hsha : sha1Hex (utf8Bytes "put\n/a b\n\nhost=h.example.com\n")
      = "3f0e14990846ae0bc21f89c52f5bbd3d21cc44cf" := by decide
  have hcat2 : ("sha1\n" ++ "0;3600" ++ "\n" ++ "3f0e14990846ae0bc21f89c52f5bbd3d21cc44cf" ++ "\n" : String)
      = "sha1\n0;3600\n3f0e14990846ae0bc21f89c52f5bbd3d21cc44cf\n" := by decide
  have hsig : hmacSha1Hex (utf8Bytes "0ded6a21377e912c4918b35856421728df926f5a")
      (utf8Bytes "sha1\n0;3600\n3f0e14990846ae0bc21f89c52f5bbd3d21cc44cf\n")
      = "25940a65a031cd6d6b0c036922e087b6be5378e1" := by decide
  simp only [specAuthorizationToken]
  rw [hkt, hm, hh, hcat1, hsha, hcat2, hsk, hsig]
  decide

/-- Claim C9 counterexample: for the URI `"/a b"` (a space forces the
percent-normalization of line 65) the token generated by the uploader
differs from the spec's section 4.1 construction applied to the same
inputs: the code hashes `quote(uri, safe='/')` = `"/a%20b"`, the spec
formula hashes `"/a b"` itself, and the resulting signatures differ. -/
theorem C9_counterexample_uri_normalization :
    cosGenerateAuthorization "sk" "id" "PUT" "/a b" "h.example.com" 0
      ≠ specAuthorizationToken "sk" "id" "PUT" "/a b" "h.example.com" 0 := by
  rw [cos_token_value, spec_token_value]
  decide

/-- Claim C9 (amended): the uploader's token equals the section 4.1
construction applied to the percent-normalized URI `quote(uri, safe='/')`
(for URIs that the normalization leaves unchanged the claim holds as
stated); the CI-API variant equals the construction applied to the URI
as given with the fixed host `{bucket}.ci.{region}.myqcloud.com` whenever
that host string is already lowercase.  Both model functions are pure, so
identical inputs and timestamp give identical tokens. -/
theorem C9_amended_token_construction (secretKey secretId method uri host
    bucket region : String) (now : Nat)
    (hlow : strToLower (bucket ++ ".ci." ++ region ++ ".myqcloud.com")
      = bucket ++ ".ci." ++ region ++ ".myqcloud.com") :
    cosGenerateAuthorization secretKey secretId method uri host now
      = specAuthorizationToken secretKey secretId method (pythonQuote uri) host now ∧
    ciGenerateAuthorization secretKey secretId bucket region method uri now
      = specAuthorizationToken secretKey secretId method uri
          (bucket ++ ".ci." ++ region ++ ".myqcloud.com") now := by
  constructor
  · rfl
  · rw [ciGenerateAuthorization, specAuthorizationToken, hlow]

/-- Witness for the amended C9 at concrete inputs. -/
theorem C9_amended_token_witness :
    cosGenerateAuthorization "sk" "id" "PUT" "/a b" "h.example.com" 1700000000
      = specAuthorizationToken "sk" "id" "PUT" (pythonQuote "/a b") "h.example.com" 1700000000 ∧
    ciGenerateAuthorization "sk" "id" "bkt" "ap-beijing" "PUT" "/a b" 1700000000
      = specAuthorizationToken "sk" "id" "PUT" "/a b"
          ("bkt" ++ ".ci." ++ "ap-beijing" ++ ".myqcloud.com") 1700000000 :=
  C9_amended_token_construction "sk" "id" "PUT" "/a b" "h.example.com"
    "bkt" "ap-beijing" 1700000000 (by decide)

end Signing
